import Mathlib

/-!
Verification of the peer-to-peer encrypted messaging subsystem
(`p2p_messaging.py`, with the registry access of `did_system.py`).

The Python source is shallowly embedded: pure functions become Lean
functions, `try/except` bodies become `Except` values with a catching
wrapper, and the ambient state the client observes (the `did_system`
module globals, the registry contents, the transport) is passed as an
explicit environment.  Randomness drawn inside `ecies.encrypt` (the
ephemeral scalar and the AES-GCM nonce) is passed as explicit tape
arguments.

The secp256k1 group used by the external `eciespy` / `eth_keys`
libraries is cyclic of prime order, so it is modelled exactly, up to
isomorphism, by discrete logarithms: a point is represented by its
logarithm with respect to the generator, and scalar multiplication is
multiplication modulo the group order.  Byte serialisation of a point's
X‖Y coordinate pair is modelled by a concrete injective 64-byte
encoding; the verified claims depend only on lengths, markers and
invertibility of the encodings, never on actual field coordinates.
-/

namespace AegisP2P

/-- Big-endian byte encoding of a natural number with a fixed width,
mirroring the fixed-width serialisations used by the key and cipher
layers. -/
def natToBytesBE : Nat → Nat → List Nat
  | 0, _ => []
  | w + 1, n => natToBytesBE w (n / 256) ++ [n % 256]

/-- Big-endian interpretation of a byte list as a natural number. -/
def bytesToNatBE (l : List Nat) : Nat := l.foldl (fun a b => a * 256 + b) 0

/-- Hexadecimal digit character for a value below 16, lowercase as produced
by Python `bytes.hex()`. -/
def hexDigitChar (d : Nat) : Char :=
  if d < 10 then Char.ofNat (48 + d) else Char.ofNat (87 + d)

/-- Value of a hexadecimal digit character, upper or lower case, as accepted
by `bytes.fromhex`. -/
def hexDigitVal? (c : Char) : Option Nat :=
  if 48 ≤ c.toNat ∧ c.toNat ≤ 57 then some (c.toNat - 48)
  else if 97 ≤ c.toNat ∧ c.toNat ≤ 102 then some (c.toNat - 87)
  else if 65 ≤ c.toNat ∧ c.toNat ≤ 70 then some (c.toNat - 55)
  else none

/-- Character-pair rendering of a byte list (Python `bytes.hex()`). -/
def bytesToHexChars : List Nat → List Char
  | [] => []
  | b :: bs => hexDigitChar (b / 16) :: hexDigitChar (b % 16) :: bytesToHexChars bs

/-- Hex string of a byte list, lowercase, without a `0x` marker. -/
def bytesToHex (l : List Nat) : String := ⟨bytesToHexChars l⟩

/-- Pairwise hex parsing (Python `bytes.fromhex`): fails on a stray final
digit or on any non-hex character. -/
def hexCharsToBytes? : List Char → Option (List Nat)
  | [] => some []
  | [_] => none
  | c1 :: c2 :: rest =>
      match hexDigitVal? c1, hexDigitVal? c2, hexCharsToBytes? rest with
      | some d1, some d2, some bs => some ((d1 * 16 + d2) :: bs)
      | _, _, _ => none

/-- Removal of an optional leading `0x`/`0X` marker (eth_utils
`remove_0x_prefix`). -/
def dropHexMarker : List Char → List Char
  | '0' :: 'x' :: rest => rest
  | '0' :: 'X' :: rest => rest
  | cs => cs

/-- Left-padding of an odd-length hex digit string with one `0` (eth_utils
`to_bytes` on a `hexstr`). -/
def padOddHex (cs : List Char) : List Char :=
  if cs.length % 2 = 1 then '0' :: cs else cs

/-- Byte parsing of a hex string as `HexBytes` does it (via eth_utils
`to_bytes`): the optional `0x` marker is removed, an odd-length digit string
is left-padded with one `0`, and any non-hex character raises (here:
`none`). -/
def hexToBytes? (s : String) : Option (List Nat) :=
  hexCharsToBytes? (padOddHex (dropHexMarker s.data))

/-- Order of the secp256k1 group, a prime; scalars and discrete logarithms
live below it. -/
def secpN : Nat := 0xFFFFFFFFFFFFFFFFFFFFFFFFFFFFFFFEBAAEDCE6AF48A03BBFD25E8CD0364141

/-- Scalar validity as enforced by the secp256k1 backends behind `eth_keys`
and `eciespy` (coincurve): a private key is a nonzero scalar below the group
order. -/
def validScalar (k : Nat) : Bool := decide (0 < k) && decide (k < secpN)

/-- Model of the 64-byte X‖Y coordinate pair of the secp256k1 point `d • G`.
The group of points is cyclic of prime order `secpN`, so a point other than
the identity is determined by its discrete logarithm `d ∈ [1, secpN)` and
scalar multiplication multiplies logarithms modulo `secpN`, which is exact.
The coordinate bytes themselves are modelled by an injective 64-byte
encoding (two big-endian copies of `d`): the claims under verification
depend only on the length and invertibility of the encoding, never on
actual field coordinates. -/
def pointCoords (d : Nat) : List Nat := natToBytesBE 32 d ++ natToBytesBE 32 d

/-- Parsing of a serialised public key as coincurve's `PublicKey`
constructor (libsecp256k1 `ec_pubkey_parse`) accepts it: a 65-byte
uncompressed encoding `04 ‖ X ‖ Y`, a 65-byte hybrid encoding
`06/07 ‖ X ‖ Y` whose marker byte must additionally match the parity of Y
(`06` even, `07` odd — here the parity of the modelled Y value), or a
33-byte compressed encoding `02/03 ‖ X`, in each case denoting a valid
curve point; every other length or marker byte is rejected.  The result is
the point, in its discrete-log representation. -/
def parsePubKey? (bs : List Nat) : Option Nat :=
  if bs.length = 65 then
    match bs with
    | p :: rest =>
        if p = 4 then
          if validScalar (bytesToNatBE (rest.take 32))
              && decide (bytesToNatBE (rest.drop 32) = bytesToNatBE (rest.take 32)) then
            some (bytesToNatBE (rest.take 32))
          else none
        else if p = 6 ∨ p = 7 then
          if validScalar (bytesToNatBE (rest.take 32))
              && decide (bytesToNatBE (rest.drop 32) = bytesToNatBE (rest.take 32))
              && decide (p = 6 + bytesToNatBE (rest.drop 32) % 2) then
            some (bytesToNatBE (rest.take 32))
          else none
        else none
    | [] => none
  else if bs.length = 33 then
    match bs with
    | p :: rest =>
        if p = 2 || p = 3 then
          if validScalar (bytesToNatBE rest) then some (bytesToNatBE rest) else none
        else none
    | [] => none
  else none

/-- Keystream byte `i` of the modelled AES-256-GCM stream cipher: a concrete
keyed function of the key, the nonce and the position. -/
def ksByte (key : Nat) (nonce : List Nat) (i : Nat) : Nat :=
  (key + bytesToNatBE nonce + i) % 256

/-- Symmetric encryption layer of the envelope (AES-256-GCM in the source),
modelled as a length-preserving keyed stream cipher over bytes. -/
def symEncrypt (key : Nat) (nonce : List Nat) : Nat → List Nat → List Nat
  | _, [] => []
  | i, b :: bs => (b + ksByte key nonce i) % 256 :: symEncrypt key nonce (i + 1) bs

/-- Inverse of `symEncrypt` on byte lists. -/
def symDecrypt (key : Nat) (nonce : List Nat) : Nat → List Nat → List Nat
  | _, [] => []
  | i, b :: bs => (b + 256 - ksByte key nonce i) % 256 :: symDecrypt key nonce (i + 1) bs

/-- GCM authentication tag over the ciphertext, modelled as a 16-byte keyed
digest; decryption recomputes and compares it. -/
def gcmTag (key : Nat) (nonce ct : List Nat) : List Nat :=
  natToBytesBE 16 ((key + bytesToNatBE nonce + bytesToNatBE ct) % 2 ^ 128)

/-- HKDF-SHA256 key derivation over the concatenated ephemeral public key
and ECDH shared point, modelled as a deterministic digest. -/
def hkdf (master : List Nat) : Nat := bytesToNatBE master % 2 ^ 256

/-- eciespy `encrypt`: parse the receiver key, generate an ephemeral keypair
from the supplied randomness, derive the AES key from the ECDH shared point,
and emit `ephemeralPub(65) ‖ nonce(16) ‖ tag(16) ‖ ciphertext`.  The
randomness the source draws internally (the ephemeral scalar and the nonce)
is passed as explicit tapes. -/
def eciesEncrypt (receiverPk : List Nat) (msg : List Nat) (ephTape nonceTape : Nat) :
    Except String (List Nat) :=
  match parsePubKey? receiverPk with
  | none => .error ("invalid public key")
  | some p =>
      let eph := ephTape % (secpN - 1) + 1
      let ephPub := 4 :: pointCoords eph
      let shared := eph * p % secpN
      let key := hkdf (ephPub ++ (4 :: pointCoords shared))
      let nonce := natToBytesBE 16 nonceTape
      let ct := symEncrypt key nonce 0 msg
      .ok (ephPub ++ nonce ++ gcmTag key nonce ct ++ ct)

/-- Final step of eciespy `decrypt`: recompute the GCM tag over the received
ciphertext and compare with the received tag; on a match, decrypt. -/
def eciesDecryptCore (key : Nat) (nonce tag ct : List Nat) : Except String (List Nat) :=
  if gcmTag key nonce ct = tag then .ok (symDecrypt key nonce 0 ct)
  else .error ("mac verification failed")

/-- Key-agreement step of eciespy `decrypt`, applied to the result of parsing
the leading 65 payload bytes as the ephemeral public key: derive the shared
AES key and hand the `nonce(16) ‖ tag(16) ‖ ciphertext` slices on. -/
def eciesDecryptParsed (secret payload : List Nat) : Option Nat → Except String (List Nat)
  | none => .error ("invalid ephemeral key")
  | some e =>
      eciesDecryptCore
        (hkdf (payload.take 65 ++ (4 :: pointCoords (bytesToNatBE secret * e % secpN))))
        ((payload.drop 65).take 16) ((payload.drop 81).take 16) (payload.drop 97)

/-- eciespy `decrypt`: validate the private scalar, split the payload into
ephemeral key, nonce, tag and ciphertext, recompute the shared AES key,
check the tag and decrypt.  Failure at any step raises (here: `.error`).
Secret validation follows coincurve's `validate_secret`: the secret bytes
must denote an integer in `(0, order)`, whatever their count — `pad_scalar`
then left-pads (or strips leading zero bytes from) the secret to 32 bytes,
which leaves its value unchanged. -/
def eciesDecrypt (secret : List Nat) (payload : List Nat) : Except String (List Nat) :=
  if validScalar (bytesToNatBE secret) = true then
    if payload.length < 97 then .error ("invalid payload")
    else eciesDecryptParsed secret payload (parsePubKey? (payload.take 65))
  else .error ("invalid secret key")

/-- Byte encoding of one character: four little-endian base-256 digits of
its code point.  Stands in for UTF-8 in the model: total on strings,
injective, with a partial inverse rejecting malformed byte sequences, which
is all the verified claims depend on. -/
def charBytes (c : Char) : List Nat :=
  [c.toNat % 256, c.toNat / 256 % 256, c.toNat / 65536 % 256, c.toNat / 16777216 % 256]

/-- Python `str.encode("utf-8")` in the model encoding. -/
def strBytesAux : List Char → List Nat
  | [] => []
  | c :: cs => charBytes c ++ strBytesAux cs

/-- Byte encoding of a whole string. -/
def strToBytes (s : String) : List Nat := strBytesAux s.data

/-- Partial inverse of the string encoding (Python `bytes.decode("utf-8")`):
fails on a truncated chunk or an invalid code point. -/
def bytesToChars? : List Nat → Option (List Char)
  | [] => some []
  | b0 :: b1 :: b2 :: b3 :: rest =>
      if Nat.isValidChar (b0 + 256 * b1 + 65536 * b2 + 16777216 * b3) then
        match bytesToChars? rest with
        | some cs => some (Char.ofNat (b0 + 256 * b1 + 65536 * b2 + 16777216 * b3) :: cs)
        | none => none
      else none
  | _ => none

/-- Decoding of a byte list into a string, when well formed. -/
def bytesToStr? (l : List Nat) : Option String :=
  (bytesToChars? l).map fun cs => ⟨cs⟩

/-- Body of `encrypt_message` (p2p_messaging.py lines 44–57), the code inside
the `try`: `HexBytes` parsing of the recipient key followed by
`ecies.encrypt`.  The `startswith("0x04")` test in the source only prints a
warning and has no effect on the result. -/
def encryptBody (recipientHexPublicKey : String) (message : String)
    (ephTape nonceTape : Nat) : Except String (List Nat) :=
  match hexToBytes? recipientHexPublicKey with
  | none => .error ("non-hexadecimal key string")
  | some pkBytes => eciesEncrypt pkBytes (strToBytes message) ephTape nonceTape

/-- `encrypt_message` (p2p_messaging.py lines 39–60): the `try/except`
wrapper mapping any raised error to `None`. -/
def encrypt_message (recipientHexPublicKey : String) (message : String)
    (ephTape nonceTape : Nat) : Option (List Nat) :=
  match encryptBody recipientHexPublicKey message ephTape nonceTape with
  | .ok payload => some payload
  | .error _ => none

/-- Body of `decrypt_message` (p2p_messaging.py lines 66–69), the code inside
the `try`: `HexBytes` parsing of the private key, `ecies.decrypt`, then
UTF-8 decoding of the plaintext bytes. -/
def decryptBody (recipientHexPrivateKey : String) (encryptedPayload : List Nat) :
    Except String String :=
  match hexToBytes? recipientHexPrivateKey with
  | none => .error ("non-hexadecimal key string")
  | some skBytes =>
      match eciesDecrypt skBytes encryptedPayload with
      | .error e => .error e
      | .ok msgBytes =>
          match bytesToStr? msgBytes with
          | none => .error ("utf-8 decode error")
          | some s => .ok s

/-- `decrypt_message` (p2p_messaging.py lines 62–73): the `try/except`
wrapper mapping any raised error to `None`. -/
def decrypt_message (recipientHexPrivateKey : String) (encryptedPayload : List Nat) :
    Option String :=
  match decryptBody recipientHexPrivateKey encryptedPayload with
  | .ok s => some s
  | .error _ => none

/-- `get_eth_keys_private_key` (p2p_messaging.py lines 22–28): `HexBytes`
parsing followed by the 32-byte and scalar-range validation that
`eth_keys.PrivateKey` and its secp256k1 backend perform; the result is the
private scalar, `None` on any failure. -/
def get_eth_keys_private_key (hexPrivateKey : String) : Option Nat :=
  match hexToBytes? hexPrivateKey with
  | none => none
  | some bs =>
      if bs.length = 32 ∧ validScalar (bytesToNatBE bs) = true then
        some (bytesToNatBE bs)
      else none

/-- `get_hex_public_key_from_private` (p2p_messaging.py lines 30–35):
`"0x04"` prepended to the hex rendering of the 64-byte X‖Y pair of the
derived public point (`eth_keys` `public_key.to_bytes()`). -/
def get_hex_public_key_from_private (hexPrivateKey : String) : Option String :=
  (get_eth_keys_private_key hexPrivateKey).map fun d =>
    "0x04" ++ bytesToHex (pointCoords d)

/-- Record stored for a DID by the registry (did_system.py `get_did_info`
result dictionary). -/
structure DIDInfo where
  owner : String
  publicKey : String
  documentCID : String
deriving DecidableEq

/-- Ambient state observed by `send_message_p2p`: whether the module-level
`did_system.w3` and `did_system.did_registry_contract` globals are set, the
registry contents (already composed with `generate_did_identifier`, so keyed
by the DID identifier string; `none` covers an unregistered DID and a failed
contract call alike), and whether the transport connect and write succeed. -/
structure P2PEnv where
  w3 : Bool
  didRegistryContract : Bool
  lookup : String → Option DIDInfo
  connectOk : Bool
  writeOk : Bool

/-- `did_system.get_did_info` (did_system.py lines 186–215) composed with
`generate_did_identifier`: `None` when the web3 globals are unset, when the
DID is not registered, or when the contract call raises. -/
def get_did_info (env : P2PEnv) (did : String) : Option DIDInfo :=
  if env.w3 && env.didRegistryContract then env.lookup did else none

/-- Stage at which a `send_message_p2p` invocation stopped. -/
inductive SendStage where
  | initFailed
  | resolutionFailed
  | encryptionFailed
  | connectionFailed
  | transmissionFailed
  | success
deriving DecidableEq

/-- Caller-visible result of `send_message_p2p` together with the observable
effects of each stage: how often resolution and encryption ran, how many
transport connections were attempted, and the bytes written to the socket. -/
structure SendTrace where
  ret : Bool
  stage : SendStage
  resolveCalls : Nat
  encryptCalls : Nat
  connectAttempts : Nat
  bytesWritten : List Nat
deriving DecidableEq

/-- `send_message_p2p` (p2p_messaging.py lines 171–223): guard on the
`did_system` globals, resolve the recipient's key through the registry
(failing when the DID is unknown or its stored `publicKey` is falsy),
encrypt, connect, write and close.  Every failure path returns `False` to
the caller; exceptions from the connect/write block are caught. -/
def send_message_p2p (env : P2PEnv) (recipientDid : String) (message : String)
    (ephTape nonceTape : Nat) : SendTrace :=
  if !env.w3 || !env.didRegistryContract then
    { ret := false, stage := .initFailed, resolveCalls := 0, encryptCalls := 0,
      connectAttempts := 0, bytesWritten := [] }
  else
    match get_did_info env recipientDid with
    | none =>
        { ret := false, stage := .resolutionFailed, resolveCalls := 1,
          encryptCalls := 0, connectAttempts := 0, bytesWritten := [] }
    | some info =>
        if info.publicKey = "" then
          { ret := false, stage := .resolutionFailed, resolveCalls := 1,
            encryptCalls := 0, connectAttempts := 0, bytesWritten := [] }
        else
          match encrypt_message info.publicKey message ephTape nonceTape with
          | none =>
              { ret := false, stage := .encryptionFailed, resolveCalls := 1,
                encryptCalls := 1, connectAttempts := 0, bytesWritten := [] }
          | some payload =>
              if !env.connectOk then
                { ret := false, stage := .connectionFailed, resolveCalls := 1,
                  encryptCalls := 1, connectAttempts := 1, bytesWritten := [] }
              else if !env.writeOk then
                { ret := false, stage := .transmissionFailed, resolveCalls := 1,
                  encryptCalls := 1, connectAttempts := 1, bytesWritten := [] }
              else
                { ret := true, stage := .success, resolveCalls := 1,
                  encryptCalls := 1, connectAttempts := 1, bytesWritten := payload }

/-- Observable outcome of handling one accepted connection: the sizes of the
socket reads issued, the bytes treated as the envelope, the items delivered
to `test_message_queue` (`some` plaintext or `none` as the failure signal),
and whether the connection was closed. -/
structure ConnOutcome where
  reads : List Nat
  envelope : List Nat
  delivered : List (Option String)
  closed : Bool
deriving DecidableEq

/-- Bounded socket read `reader.read(n)`: at most `n` bytes — modelled
deterministically as the first `n` bytes of the inbound stream. -/
def sockRead (n : Nat) (stream : List Nat) : List Nat := stream.take n

/-- `handle_connection_for_test` (p2p_messaging.py lines 80–110): a single
4096-byte read; an empty read returns early, closing in `finally`; otherwise
the decryption result is delivered to `test_message_queue` — the plaintext
when `decrypt_message` returns a truthy (non-empty) string, `None`
otherwise. -/
def handle_connection_for_test (localHexPrivateKey : String) (stream : List Nat) :
    ConnOutcome :=
  if sockRead 4096 stream = [] then
    { reads := [4096], envelope := sockRead 4096 stream, delivered := [], closed := true }
  else
    match decrypt_message localHexPrivateKey (sockRead 4096 stream) with
    | some m =>
        if m = "" then
          { reads := [4096], envelope := sockRead 4096 stream, delivered := [none],
            closed := true }
        else
          { reads := [4096], envelope := sockRead 4096 stream, delivered := [some m],
            closed := true }
    | none =>
        { reads := [4096], envelope := sockRead 4096 stream, delivered := [none],
          closed := true }

/-- `default_handle_connection` (p2p_messaging.py lines 125–143): the same
single bounded read and decryption, logging only — nothing is ever delivered
to a queue; the connection is closed in `finally`. -/
def default_handle_connection (localHexPrivateKey : String) (stream : List Nat) :
    ConnOutcome :=
  if sockRead 4096 stream = [] then
    { reads := [4096], envelope := sockRead 4096 stream, delivered := [], closed := true }
  else
    match decrypt_message localHexPrivateKey (sockRead 4096 stream) with
    | some _ =>
        { reads := [4096], envelope := sockRead 4096 stream, delivered := [], closed := true }
    | none =>
        { reads := [4096], envelope := sockRead 4096 stream, delivered := [], closed := true }

/-- Accept loop of `start_server` (p2p_messaging.py lines 148–166) with the
test handler installed: every accepted connection is handled independently by
`handle_connection_for_test`; handling one connection has no effect on how
later ones are served. -/
def server_run (localHexPrivateKey : String) (conns : List (List Nat)) :
    List ConnOutcome :=
  conns.map (handle_connection_for_test localHexPrivateKey)

/-- Demonstration private key: the scalar 1 as a 32-byte hex string. -/
def privDemo : String :=
  "0x0000000000000000000000000000000000000000000000000000000000000001"

/-- Demonstration environment: registry connected, but no DID registered. -/
def envDemo : P2PEnv :=
  { w3 := true, didRegistryContract := true, lookup := fun _ => none,
    connectOk := true, writeOk := true }

/-- Demonstration environment: the registry resolves every DID to a record
whose stored public key is malformed (too short to be a curve point). -/
def envBadKey : P2PEnv :=
  { w3 := true, didRegistryContract := true,
    lookup := fun _ => some { owner := "", publicKey := "0x0001", documentCID := "" },
    connectOk := true, writeOk := true }

/-- Demonstration environment: the `did_system` globals are unset. -/
def envNoInit : P2PEnv :=
  { w3 := false, didRegistryContract := true, lookup := fun _ => none,
    connectOk := true, writeOk := true }

theorem length_natToBytesBE (w n : Nat) : (natToBytesBE w n).length = w := by
  induction w generalizing n with
  | zero => rfl
  | succ w ih => simp [natToBytesBE, ih]

theorem natToBytesBE_lt (w n : Nat) : ∀ b ∈ natToBytesBE w n, b < 256 := by
  induction w generalizing n with
  | zero => intro b hb; simp [natToBytesBE] at hb
  | succ w ih =>
    intro b hb
    simp only [natToBytesBE, List.mem_append, List.mem_singleton] at hb
    rcases hb with hb | hb
    · exact ih _ b hb
    · omega

theorem bytesToNatBE_concat (l : List Nat) (b : Nat) :
    bytesToNatBE (l ++ [b]) = bytesToNatBE l * 256 + b := by
  simp [bytesToNatBE, List.foldl_append]

theorem bytesToNatBE_natToBytesBE (w n : Nat) (h : n < 256 ^ w) :
    bytesToNatBE (natToBytesBE w n) = n := by
  induction w generalizing n with
  | zero => simp [natToBytesBE, bytesToNatBE]; omega
  | succ w ih =>
    have hdiv : n / 256 < 256 ^ w := by
      rw [Nat.div_lt_iff_lt_mul (by norm_num)]
      calc n < 256 ^ (w + 1) := h
        _ = 256 ^ w * 256 := by rw [pow_succ]
    rw [natToBytesBE, bytesToNatBE_concat, ih _ hdiv]
    omega

theorem hexDigitVal?_hexDigitChar : ∀ d < 16, hexDigitVal? (hexDigitChar d) = some d := by
  decide

theorem length_bytesToHexChars (l : List Nat) :
    (bytesToHexChars l).length = 2 * l.length := by
  induction l with
  | nil => rfl
  | cons b bs ih => simp [bytesToHexChars, ih]; ring

theorem hexCharsToBytes?_bytesToHexChars (l : List Nat) (h : ∀ b ∈ l, b < 256) :
    hexCharsToBytes? (bytesToHexChars l) = some l := by
  induction l with
  | nil => rfl
  | cons b bs ih =>
    have hb : b < 256 := h b (by simp)
    have h1 : hexDigitVal? (hexDigitChar (b / 16)) = some (b / 16) :=
      hexDigitVal?_hexDigitChar _ (by omega)
    have h2 : hexDigitVal? (hexDigitChar (b % 16)) = some (b % 16) :=
      hexDigitVal?_hexDigitChar _ (by omega)
    have h3 : hexCharsToBytes? (bytesToHexChars bs) = some bs :=
      ih (fun x hx => h x (by simp [hx]))
    rw [bytesToHexChars, hexCharsToBytes?, h1, h2, h3]
    have hbval : b / 16 * 16 + b % 16 = b := by omega
    simp [hbval]

theorem hexToBytes?_0x_bytesToHex (l : List Nat) (h : ∀ b ∈ l, b < 256) :
    hexToBytes? ("0x" ++ bytesToHex l) = some l := by
  have hdata : ("0x" ++ bytesToHex l).data = '0' :: 'x' :: bytesToHexChars l := by
    rw [String.data_append]; rfl
  unfold hexToBytes?
  rw [hdata]
  have hdrop : dropHexMarker ('0' :: 'x' :: bytesToHexChars l) = bytesToHexChars l := rfl
  rw [hdrop]
  unfold padOddHex
  rw [if_neg (by rw [length_bytesToHexChars]; omega)]
  exact hexCharsToBytes?_bytesToHexChars l h

theorem validScalar_elim {k : Nat} (h : validScalar k = true) : 0 < k ∧ k < secpN := by
  simpa [validScalar] using h

theorem secpN_lt_pow : secpN < 256 ^ 32 := by decide

theorem length_pointCoords (d : Nat) : (pointCoords d).length = 64 := by
  simp [pointCoords, length_natToBytesBE]

theorem pointCoords_lt (d : Nat) : ∀ b ∈ pointCoords d, b < 256 := by
  intro b hb
  rcases List.mem_append.mp hb with hb | hb
  · exact natToBytesBE_lt 32 d b hb
  · exact natToBytesBE_lt 32 d b hb

theorem parsePubKey?_point (d : Nat) (h : validScalar d = true) :
    parsePubKey? (4 :: pointCoords d) = some d := by
  have hd32 : d < 256 ^ 32 := lt_trans (validScalar_elim h).2 secpN_lt_pow
  have hlen : (4 :: pointCoords d).length = 65 := by
    simp [length_pointCoords]
  have htake : (pointCoords d).take 32 = natToBytesBE 32 d :=
    List.take_left' (length_natToBytesBE 32 d)
  have hdrop : (pointCoords d).drop 32 = natToBytesBE 32 d :=
    List.drop_left' (length_natToBytesBE 32 d)
  unfold parsePubKey?
  rw [if_pos hlen]
  simp only [htake, hdrop, bytesToNatBE_natToBytesBE 32 d hd32, h]
  simp

theorem symDecrypt_symEncrypt (key : Nat) (nonce : List Nat) (i : Nat) (msg : List Nat)
    (h : ∀ b ∈ msg, b < 256) :
    symDecrypt key nonce i (symEncrypt key nonce i msg) = msg := by
  induction msg generalizing i with
  | nil => rfl
  | cons b bs ih =>
    have hb : b < 256 := h b (by simp)
    have hks : ksByte key nonce i < 256 := Nat.mod_lt _ (by norm_num)
    rw [symEncrypt, symDecrypt, ih (i + 1) (fun x hx => h x (by simp [hx]))]
    congr 1
    omega

theorem strBytesAux_lt (cs : List Char) : ∀ b ∈ strBytesAux cs, b < 256 := by
  induction cs with
  | nil => intro b hb; simp [strBytesAux] at hb
  | cons c cs ih =>
    intro b hb
    rcases List.mem_append.mp hb with hb | hb
    · simp only [charBytes, List.mem_cons, List.not_mem_nil, or_false] at hb
      rcases hb with h | h | h | h <;> omega
    · exact ih b hb

theorem bytesToChars?_strBytesAux (cs : List Char) :
    bytesToChars? (strBytesAux cs) = some cs := by
  induction cs with
  | nil => rfl
  | cons c cs ih =>
    have hlt : c.toNat < 4294967296 := c.val.toNat_lt
    have hrecon : c.toNat % 256 + 256 * (c.toNat / 256 % 256) + 65536 * (c.toNat / 65536 % 256)
        + 16777216 * (c.toNat / 16777216 % 256) = c.toNat := by omega
    have hvalid : Nat.isValidChar c.toNat := c.valid
    rw [strBytesAux, charBytes]
    show bytesToChars? (c.toNat % 256 :: c.toNat / 256 % 256 :: c.toNat / 65536 % 256
      :: c.toNat / 16777216 % 256 :: strBytesAux cs) = some (c :: cs)
    rw [bytesToChars?, hrecon, if_pos hvalid, ih, Char.ofNat_toNat]

theorem bytesToStr?_strToBytes (s : String) : bytesToStr? (strToBytes s) = some s := by
  rw [strToBytes, bytesToStr?, bytesToChars?_strBytesAux]
  rfl

theorem append_0x04 (l : List Nat) : "0x04" ++ bytesToHex l = "0x" ++ bytesToHex (4 :: l) := by
  apply String.ext
  rw [String.data_append, String.data_append]
  show ['0', 'x', '0', '4'] ++ bytesToHexChars l = ['0', 'x'] ++ bytesToHexChars (4 :: l)
  rw [bytesToHexChars]
  norm_num [hexDigitChar]

theorem length_gcmTag (key : Nat) (nonce ct : List Nat) : (gcmTag key nonce ct).length = 16 := by
  rw [gcmTag]; exact length_natToBytesBE 16 _

theorem eciesDecrypt_eciesEncrypt (skBytes msg : List Nat) (t1 t2 : Nat) (cipher : List Nat)
    (hval : validScalar (bytesToNatBE skBytes) = true)
    (hmsg : ∀ b ∈ msg, b < 256)
    (henc : eciesEncrypt (4 :: pointCoords (bytesToNatBE skBytes)) msg t1 t2 = .ok cipher) :
    eciesDecrypt skBytes cipher = .ok msg := by
  have hephval : validScalar (t1 % (secpN - 1) + 1) = true := by
    have h1 : t1 % (secpN - 1) < secpN - 1 := Nat.mod_lt _ (by decide)
    simp only [validScalar, Bool.and_eq_true, decide_eq_true_eq]
    omega
  rw [eciesEncrypt, parsePubKey?_point _ hval] at henc
  simp only [Except.ok.injEq] at henc
  subst henc
  set d := bytesToNatBE skBytes with hd
  set eph := t1 % (secpN - 1) + 1 with heph
  set ephPub : List Nat := 4 :: pointCoords eph with hephPub
  set nonce := natToBytesBE 16 t2 with hnonce
  set key := hkdf (ephPub ++ (4 :: pointCoords (eph * d % secpN))) with hkey
  set ct := symEncrypt key nonce 0 msg with hct
  set tag := gcmTag key nonce ct with htag
  have hEphLen : ephPub.length = 65 := by rw [hephPub]; simp [length_pointCoords]
  have hNonceLen : nonce.length = 16 := by rw [hnonce]; exact length_natToBytesBE 16 t2
  have hTagLen : tag.length = 16 := by rw [htag]; exact length_gcmTag key nonce ct
  have hTotal : (ephPub ++ nonce ++ tag ++ ct).length = 97 + ct.length := by
    simp [List.length_append, hEphLen, hNonceLen, hTagLen]; omega
  have htake65 : (ephPub ++ nonce ++ tag ++ ct).take 65 = ephPub := by
    simp only [List.append_assoc]
    exact List.take_left' hEphLen
  have hdrop65 : (ephPub ++ nonce ++ tag ++ ct).drop 65 = nonce ++ (tag ++ ct) := by
    simp only [List.append_assoc]
    exact List.drop_left' hEphLen
  have hdrop81 : (ephPub ++ nonce ++ tag ++ ct).drop 81 = tag ++ ct := by
    rw [List.append_assoc (ephPub ++ nonce) tag ct]
    exact List.drop_left' (by rw [List.length_append, hEphLen, hNonceLen])
  have hdrop97 : (ephPub ++ nonce ++ tag ++ ct).drop 97 = ct :=
    List.drop_left' (by rw [List.length_append, List.length_append, hEphLen, hNonceLen, hTagLen])
  delta eciesDecrypt
  rw [if_pos hval, if_neg (by rw [hTotal]; omega)]
  rw [htake65, hephPub, parsePubKey?_point _ hephval]
  rw [eciesDecryptParsed]
  rw [htake65, hdrop65, hdrop81, hdrop97]
  rw [List.take_left' hNonceLen, List.take_left' hTagLen]
  rw [Nat.mul_comm d eph]
  rw [hephPub] at hkey
  rw [← hkey]
  delta eciesDecryptCore
  rw [if_pos htag.symm, hct, symDecrypt_symEncrypt key nonce 0 msg hmsg]

theorem strToBytes_lt (s : String) : ∀ b ∈ strToBytes s, b < 256 :=
  strBytesAux_lt s.data

theorem data_bytesToHex (l : List Nat) : (bytesToHex l).data = bytesToHexChars l := by
  rw [bytesToHex]

/-- C1: for every valid secp256k1 keypair — `pubHex` the uncompressed hex
public key derived from `privHex` — and every plaintext whose ciphertext
fits within the 4096-byte buffer limit, `decrypt_message` applied to the
envelope produced by `encrypt_message` returns exactly the plaintext. -/
theorem c1_encrypt_decrypt_round_trip (privHex pubHex p : String)
    (ephTape nonceTape : Nat)
    (hpub : get_hex_public_key_from_private privHex = some pubHex)
    (cipher : List Nat)
    (henc : encrypt_message pubHex p ephTape nonceTape = some cipher)
    (hfit : cipher.length ≤ 4096) :
    decrypt_message privHex cipher = some p := by
  unfold get_hex_public_key_from_private at hpub
  cases hsk : get_eth_keys_private_key privHex with
  | none => rw [hsk] at hpub; simp at hpub
  | some d =>
    rw [hsk, Option.map_some'] at hpub
    simp only [Option.some.injEq] at hpub
    subst hpub
    unfold get_eth_keys_private_key at hsk
    cases hhex : hexToBytes? privHex with
    | none => rw [hhex] at hsk; simp at hsk
    | some bs =>
      rw [hhex] at hsk
      simp only [] at hsk
      by_cases hcond : bs.length = 32 ∧ validScalar (bytesToNatBE bs) = true
      · rw [if_pos hcond] at hsk
        simp only [Option.some.injEq] at hsk
        subst hsk
        have hpkbytes : hexToBytes? ("0x04" ++ bytesToHex (pointCoords (bytesToNatBE bs)))
            = some (4 :: pointCoords (bytesToNatBE bs)) := by
          rw [append_0x04]
          apply hexToBytes?_0x_bytesToHex
          intro b hb
          rcases List.mem_cons.mp hb with rfl | hb
          · omega
          · exact pointCoords_lt _ b hb
        unfold encrypt_message encryptBody at henc
        rw [hpkbytes] at henc
        simp only [] at henc
        cases he : eciesEncrypt (4 :: pointCoords (bytesToNatBE bs)) (strToBytes p)
            ephTape nonceTape with
        | error e => rw [he] at henc; simp at henc
        | ok payload =>
          rw [he] at henc
          simp only [Option.some.injEq] at henc
          subst henc
          have hdec : eciesDecrypt bs payload = .ok (strToBytes p) :=
            eciesDecrypt_eciesEncrypt bs (strToBytes p) ephTape nonceTape payload
              hcond.2 (strToBytes_lt p) he
          unfold decrypt_message decryptBody
          rw [hhex]
          simp only [hdec, bytesToStr?_strToBytes]
      · rw [if_neg hcond] at hsk; simp at hsk

set_option maxRecDepth 10000 in
/-- Witness for C1: the scalar-1 keypair round-trips the plaintext "hi". -/
theorem c1_witness :
    decrypt_message privDemo
      ((encrypt_message ((get_hex_public_key_from_private privDemo).getD "") "hi" 5 7).getD [])
      = some "hi" :=
  c1_encrypt_decrypt_round_trip privDemo
    ((get_hex_public_key_from_private privDemo).getD "") "hi" 5 7 (by rfl) _ (by rfl) (by decide)


/-- C3 counterexample: a resolution failure (unknown DID) and an encryption
failure (malformed resolved key) stop at different stages but produce the
identical caller-visible result `False`, so the failing stage is not
distinguishable in the result of the send operation. -/
theorem c3_counterexample :
    (send_message_p2p envDemo "unknown-peer" "m" 5 7).stage = SendStage.resolutionFailed ∧
    (send_message_p2p envBadKey "peer" "m" 5 7).stage = SendStage.encryptionFailed ∧
    (send_message_p2p envDemo "unknown-peer" "m" 5 7).ret =
      (send_message_p2p envBadKey "peer" "m" 5 7).ret := by
  decide

/-- C3 (amended): the stages of `send_message_p2p` fail distinguishably only
in the logged trace, not in the caller-visible result: every stage failure
returns the same `False`, and the Boolean result is `True` exactly when all
stages succeeded. -/
theorem c3_return_collapses_stages (env : P2PEnv) (did m : String) (t1 t2 : Nat) :
    (send_message_p2p env did m t1 t2).ret = true ↔
      (send_message_p2p env did m t1 t2).stage = SendStage.success := by
  unfold send_message_p2p
  split
  · simp
  · split
    · simp
    · split
      · simp
      · split
        · simp
        · split
          · simp
          · split
            · simp
            · simp

/-- C4 counterexample: an accepted connection whose single read returns no
data (peer closed without sending) completes — the connection is closed —
without any handler delivery, so not every accepted connection delivers
exactly one item. -/
theorem c4_counterexample :
    (handle_connection_for_test privDemo []).delivered = [] ∧
    (handle_connection_for_test privDemo []).closed = true := by
  decide

/-- C4 (amended): every accepted connection whose single 4096-byte read
returns data has exactly one item delivered to the handler queue before the
connection is closed — the plaintext on decryption to a truthy string, the
`None` failure signal otherwise; a connection whose read returns no data is
closed with no delivery. -/
theorem c4_handler_delivery (priv : String) (stream : List Nat) :
    (sockRead 4096 stream ≠ [] →
      (handle_connection_for_test priv stream).delivered.length = 1) ∧
    (sockRead 4096 stream = [] →
      (handle_connection_for_test priv stream).delivered = []) ∧
    (handle_connection_for_test priv stream).closed = true := by
  unfold handle_connection_for_test
  split
  · next h => exact ⟨fun hne => absurd h hne, fun _ => rfl, rfl⟩
  · next h =>
    refine ⟨fun _ => ?_, fun hc => absurd hc h, ?_⟩
    · split
      · split <;> rfl
      · rfl
    · split
      · split <;> rfl
      · rfl

/-- Witness for the amended C4: a nonempty malformed stream yields exactly
one delivered item and a closed connection. -/
theorem c4_witness :
    (sockRead 4096 [1, 2, 3] ≠ [] →
      (handle_connection_for_test privDemo [1, 2, 3]).delivered.length = 1) ∧
    (sockRead 4096 [1, 2, 3] = [] →
      (handle_connection_for_test privDemo [1, 2, 3]).delivered = []) ∧
    (handle_connection_for_test privDemo [1, 2, 3]).closed = true :=
  c4_handler_delivery privDemo [1, 2, 3]

/-- C5: when the registry reports the target DID as unregistered (or
registered with no stored public key), the send fails as a resolution error
immediately: the result is `False`, no transport connection is attempted and
zero bytes are written to any socket. -/
theorem c5_unresolved_did_no_connection (env : P2PEnv) (did m : String) (t1 t2 : Nat)
    (hw3 : env.w3 = true) (hcon : env.didRegistryContract = true)
    (hres : ∀ i, get_did_info env did = some i → i.publicKey = "") :
    send_message_p2p env did m t1 t2 =
      { ret := false, stage := SendStage.resolutionFailed, resolveCalls := 1,
        encryptCalls := 0, connectAttempts := 0, bytesWritten := [] } := by
  unfold send_message_p2p
  rw [hw3, hcon]
  simp only [Bool.not_true, Bool.or_self, Bool.false_eq_true, if_false]
  cases hinfo : get_did_info env did with
  | none => rfl
  | some i => simp only []; rw [if_pos (hres i hinfo)]

/-- Witness for C5: sending to the spec's `"unknown-peer"` DID in a
connected environment with an empty registry. -/
theorem c5_witness :
    send_message_p2p envDemo "unknown-peer" "m" 5 7 =
      { ret := false, stage := SendStage.resolutionFailed, resolveCalls := 1,
        encryptCalls := 0, connectAttempts := 0, bytesWritten := [] } :=
  c5_unresolved_did_no_connection envDemo "unknown-peer" "m" 5 7 rfl rfl
    (fun i h => by simp [get_did_info, envDemo] at h)

/-- C6: each connection handler — the test handler and the default one —
performs exactly one bounded read with a 4096-byte buffer and treats exactly
the first 4096 bytes of the inbound stream as the complete envelope: no
second read is issued and no length information is consulted. -/
theorem c6_single_bounded_read (priv : String) (stream : List Nat) :
    (handle_connection_for_test priv stream).reads = [4096] ∧
    (handle_connection_for_test priv stream).envelope = stream.take 4096 ∧
    (default_handle_connection priv stream).reads = [4096] ∧
    (default_handle_connection priv stream).envelope = stream.take 4096 := by
  unfold handle_connection_for_test default_handle_connection sockRead
  refine ⟨?_, ?_, ?_, ?_⟩ <;>
    · split
      · rfl
      · split
        · first
          | rfl
          | (split <;> rfl)
        · rfl

/-- C7: an inbound connection whose payload is not a valid envelope for the
server's key never terminates the service: the failure is absorbed into a
`None` delivery to the handler, the connection is closed, and every later
connection is served exactly as it would be on its own. -/
theorem c7_malformed_connection_isolated (priv : String) (bad : List Nat)
    (rest : List (List Nat))
    (hne : sockRead 4096 bad ≠ [])
    (hfail : decrypt_message priv (sockRead 4096 bad) = none) :
    server_run priv (bad :: rest) =
      { reads := [4096], envelope := sockRead 4096 bad, delivered := [none],
        closed := true } :: server_run priv rest := by
  unfold server_run
  rw [List.map_cons]
  congr 1
  unfold handle_connection_for_test
  rw [if_neg hne, hfail]

set_option maxRecDepth 10000 in
/-- Witness for C7: a 120-byte garbage payload is absorbed with a `None`
delivery while the next connection is still served. -/
theorem c7_witness :
    server_run privDemo (List.replicate 120 7 :: [[1, 2, 3]]) =
      { reads := [4096], envelope := sockRead 4096 (List.replicate 120 7),
        delivered := [none], closed := true } :: server_run privDemo [[1, 2, 3]] :=
  c7_malformed_connection_isolated privDemo (List.replicate 120 7) [[1, 2, 3]]
    (by decide) (by decide)

/-- C8: every public key string produced by
`get_hex_public_key_from_private` is the fixed uncompressed-point marker
`0x04` followed by 128 hex characters for the 64-byte X‖Y pair: 132
characters in all, i.e. 130 characters of key material after the leading
`0x`. -/
theorem c8_uncompressed_encoding (privHex pubHex : String)
    (h : get_hex_public_key_from_private privHex = some pubHex) :
    pubHex.data.take 4 = ['0', 'x', '0', '4'] ∧ pubHex.data.length = 132 := by
  unfold get_hex_public_key_from_private at h
  cases hsk : get_eth_keys_private_key privHex with
  | none => rw [hsk] at h; simp at h
  | some d =>
    rw [hsk, Option.map_some'] at h
    simp only [Option.some.injEq] at h
    subst h
    constructor
    · rw [String.data_append]
      rfl
    · rw [String.data_append, List.length_append]
      rw [data_bytesToHex, length_bytesToHexChars, length_pointCoords]
      rfl

set_option maxRecDepth 10000 in
set_option maxHeartbeats 1000000 in
/-- Witness for C8 at the scalar-1 private key. -/
theorem c8_witness :
    ((get_hex_public_key_from_private privDemo).getD "").data.take 4 = ['0', 'x', '0', '4'] ∧
    ((get_hex_public_key_from_private privDemo).getD "").data.length = 132 :=
  c8_uncompressed_encoding privDemo ((get_hex_public_key_from_private privDemo).getD "")
    (by rfl)

/-- C9: the three public operations are total at their interfaces: the
`try/except` wrappers of `encrypt_message` and `decrypt_message` return
exactly the `Option`-collapse of their fallible bodies (`None` on any raised
error, the value otherwise), and `send_message_p2p` always returns one of
the two Booleans — no failure escapes as an exception. -/
theorem c9_totality (pk m sk : String) (t1 t2 : Nat) (payload : List Nat)
    (env : P2PEnv) (did msg : String) :
    encrypt_message pk m t1 t2 = (encryptBody pk m t1 t2).toOption ∧
    decrypt_message sk payload = (decryptBody sk payload).toOption ∧
    ((send_message_p2p env did msg t1 t2).ret = true ∨
      (send_message_p2p env did msg t1 t2).ret = false) := by
  refine ⟨?_, ?_, Bool.eq_false_or_eq_true _⟩
  · unfold encrypt_message
    cases encryptBody pk m t1 t2 <;> rfl
  · unfold decrypt_message
    cases decryptBody sk payload <;> rfl

/-- C10: with either `did_system` global unset (`w3` or the contract), the
send returns `False` immediately: resolution, encryption and connection are
all skipped and nothing is written. -/
theorem c10_uninitialized_guard (env : P2PEnv) (did m : String) (t1 t2 : Nat)
    (h : env.w3 = false ∨ env.didRegistryContract = false) :
    send_message_p2p env did m t1 t2 =
      { ret := false, stage := SendStage.initFailed, resolveCalls := 0,
        encryptCalls := 0, connectAttempts := 0, bytesWritten := [] } := by
  unfold send_message_p2p
  rcases h with h | h <;> rw [h] <;> simp

/-- Witness for C10: the uninitialized environment. -/
theorem c10_witness :
    send_message_p2p envNoInit "peer" "m" 5 7 =
      { ret := false, stage := SendStage.initFailed, resolveCalls := 0,
        encryptCalls := 0, connectAttempts := 0, bytesWritten := [] } :=
  c10_uninitialized_guard envNoInit "peer" "m" 5 7 (Or.inl rfl)

end AegisP2P
